import Mathlib

/-!
Verification of the helper functions of the PistonDevelopers/editor crate
(`src/lib.rs`) against its specification.

The crate consists of the `Editor` trait (interface only), the data-model
structures `Type`, `Object`, `Reference`, `Field`, and four free helper
functions `delete`, `update`, `all`, `get` operating on a `Vec<T>` table.
Only the helpers contain executable code; they are embedded here.

Modelling conventions:
- `Vec<T>` is `List T`; `&mut Vec<T>` mutation is explicit state passing:
  a helper that mutates the vector returns the final vector alongside its
  Rust return value.
- Rust `Result<A, ()>` is `Except Unit A`.
- A Rust panic (out-of-range `Vec::swap_remove`, out-of-range `IndexMut`)
  is modelled as `Option.none` wrapped around the whole outcome: `none`
  means the call does not return at all.
- The type-erased `&Any` payload together with `downcast_ref::<T>` is
  modelled by an arbitrary payload type `U` and a projection
  `downcast : U → Option T`; a concrete instance (`AnyVal`, `downcastNat`)
  is provided for evaluation.
-/

namespace EditorLib

/-- Embeds `pub struct Type(pub &'static str)` (named `Ty` here because
`Type` is reserved in Lean). -/
structure Ty where
  name : String
deriving DecidableEq, Repr

/-- Embeds `pub struct Object(pub usize)`: the object id, an index into the
table of its type. The single positional field is called `idx`. -/
structure Object where
  idx : Nat
deriving DecidableEq, Repr

/-- Embeds `pub struct Field`: field metadata (`Arc<String>` becomes
`String`). -/
structure Field where
  name : String
  ty : Ty
  index : Nat
  array : Nat
deriving DecidableEq, Repr

/-- Embeds `pub struct Reference`: a directed edge between objects with
cascade/optional policy. -/
structure Reference where
  from_ty : Ty
  from_obj : Object
  to_type : Ty
  to_obj : Object
  cascade : Bool
  optional : Bool
  field : Field
deriving DecidableEq, Repr

/-- Model of Rust `Vec::swap_remove(i)`: the last element is moved into
slot `i` and the vector shrinks by one. Returns `none` (panic) when `i`
is out of bounds, in particular always on the empty vector. -/
def swap_remove {T : Type} (items : List T) (i : Nat) : Option (List T) :=
  match items.getLast? with
  | none => none
  | some last =>
    if i < items.length then some ((items.set i last).dropLast) else none

/-- Embeds the helper `pub fn delete<T>(items: &mut Vec<T>, obj: Object) ->
Result<Option<Object>, ()>`:

    if items.len() == 0 { return Err(()); }
    let upd_obj = if obj.0 == items.len() - 1 { None }
                  else { Some(Object(items.len() - 1)) };
    items.swap_remove(obj.0);
    Ok(upd_obj)

The outer `Option` is `none` exactly when `swap_remove` panics; otherwise
the pair holds the Rust return value and the final vector. -/
def delete {T : Type} (items : List T) (obj : Object) :
    Option (Except Unit (Option Object) × List T) :=
  if items.length = 0 then some (Except.error (), items)
  else
    let upd_obj : Option Object :=
      if obj.idx = items.length - 1 then none
      else some (Object.mk (items.length - 1))
    match swap_remove items obj.idx with
    | none => none
    | some items' => some (Except.ok upd_obj, items')

/-- Embeds the helper `pub fn update<T: Any + Clone>(items: &mut Vec<T>,
obj: Object, args: &Any) -> Result<(), ()>`:

    match args.downcast_ref::<T>() {
        None => { return Err(()); }
        Some(val) => { items[obj.0] = val.clone(); Ok(()) }
    }

`downcast` stands for `downcast_ref::<T>`. The indexed assignment
`items[obj.0] = ...` panics (outer `none`) when `obj.0` is out of range. -/
def update {U T : Type} (downcast : U → Option T) (items : List T)
    (obj : Object) (args : U) : Option (Except Unit Unit × List T) :=
  match downcast args with
  | none => some (Except.error (), items)
  | some val =>
    if obj.idx < items.length then some (Except.ok (), items.set obj.idx val)
    else none

/-- Embeds the helper `pub fn all<T>(items: &Vec<T>) -> Vec<Object>`:
`(0..items.len()).map(|i| Object(i)).collect()`. -/
def all {T : Type} (items : List T) : List Object :=
  (List.range items.length).map (fun i => Object.mk i)

/-- Embeds the helper `pub fn get<T: Any>(items: &Vec<T>, obj: Object) ->
Result<&Any, ()>`: `Ok(try!(items.get(obj.0).ok_or(())))`. The returned
`&Any` is the element itself, so the model returns the element. -/
def get {T : Type} (items : List T) (obj : Object) : Except Unit T :=
  match items[obj.idx]? with
  | none => Except.error ()
  | some v => Except.ok v

/-- A concrete payload universe standing in for Rust `&Any` values, used
to evaluate `update` on concrete inputs. -/
inductive AnyVal where
  | nat : Nat → AnyVal
  | str : String → AnyVal
deriving DecidableEq, Repr

/-- `downcast_ref::<usize>` on the concrete payload universe. -/
def downcastNat : AnyVal → Option Nat
  | AnyVal.nat n => some n
  | _ => none

/-- On an in-range index, `swap_remove` succeeds and the result is the
vector with the last element written into slot `i` and then truncated. -/
theorem swap_remove_of_lt {T : Type} (items : List T) (i : Nat)
    (hi : i < items.length) :
    ∃ last, items[items.length - 1]? = some last ∧
      swap_remove items i = some ((items.set i last).dropLast) := by
  have hlt : items.length - 1 < items.length := by omega
  obtain ⟨last, hsome⟩ : ∃ last, items[items.length - 1]? = some last :=
    ⟨_, List.getElem?_eq_getElem hlt⟩
  refine ⟨last, hsome, ?_⟩
  unfold swap_remove
  rw [List.getLast?_eq_getElem?, hsome]
  simp [hi]

/-- On an out-of-range index, `swap_remove` panics. -/
theorem swap_remove_none_of_le {T : Type} (items : List T) (i : Nat)
    (h : items.length ≤ i) : swap_remove items i = none := by
  unfold swap_remove
  cases hl : items.getLast? with
  | none => rfl
  | some last => simp [Nat.not_lt.mpr h]

/-- Closed form of `delete` on an in-range index: the remap value depends
only on whether `i` was last, and the final vector is the swap-remove
result. -/
theorem delete_eq_of_lt {T : Type} (items : List T) (i : Nat)
    (hi : i < items.length) :
    ∃ last, items[items.length - 1]? = some last ∧
      delete items ⟨i⟩ =
        some (Except.ok (if i = items.length - 1 then none
                         else some (Object.mk (items.length - 1))),
              (items.set i last).dropLast) := by
  obtain ⟨last, h1, h2⟩ := swap_remove_of_lt items i hi
  refine ⟨last, h1, ?_⟩
  have hne : ¬ items.length = 0 := by omega
  simp only [delete, if_neg hne, h2]

/-- Claim C1: for every vector of length `n ≥ 1` and every index `i < n`,
the helper `delete items (Object i)` returns `Ok None` if and only if
`i = n - 1`, and otherwise returns `Ok (Some (Object (n - 1)))` — the old
last index that holders must remap to `i`. -/
theorem delete_remap {T : Type} (items : List T) (i : Nat)
    (_h1 : 1 ≤ items.length) (h2 : i < items.length) :
    ∃ l', delete items ⟨i⟩ =
      some (Except.ok (if i = items.length - 1 then none
                       else some (Object.mk (items.length - 1))), l') := by
  obtain ⟨last, _, hd⟩ := delete_eq_of_lt items i h2
  exact ⟨_, hd⟩

/-- Witness for C1 at `items = [10, 20, 30]`, `i = 0`. -/
theorem delete_remap_witness :
    1 ≤ ([10, 20, 30] : List Nat).length ∧ 0 < ([10, 20, 30] : List Nat).length ∧
    ∃ l', delete ([10, 20, 30] : List Nat) ⟨0⟩ =
      some (Except.ok (some (Object.mk 2)), l') := by
  refine ⟨by decide, by decide, ?_⟩
  have h := delete_remap ([10, 20, 30] : List Nat) 0 (by decide) (by decide)
  simpa using h

/-- Claim C2: after a successful `delete` the vector has length `n - 1`
and, when `i < n - 1`, the element that was at index `n - 1` before the
call is now at index `i`; concretely on `[A, B, C]`, `delete ⟨0⟩` returns
`Ok (Some (Object 2))` and the table becomes `[C, B]`. -/
theorem delete_swap_effect {T : Type} (items : List T) (i : Nat)
    (_h1 : 1 ≤ items.length) (h2 : i < items.length) :
    (∃ res l', delete items ⟨i⟩ = some (Except.ok res, l') ∧
      l'.length = items.length - 1 ∧
      (i < items.length - 1 → l'[i]? = items[items.length - 1]?)) ∧
    ∀ A B C : T, delete [A, B, C] ⟨0⟩ =
      some (Except.ok (some (Object.mk 2)), [C, B]) := by
  constructor
  · obtain ⟨last, hlast, hd⟩ := delete_eq_of_lt items i h2
    refine ⟨_, _, hd, ?_, ?_⟩
    · rw [List.length_dropLast, List.length_set]
    · intro hi
      have hset : ((items.set i last).dropLast)[i]? = some last := by
        rw [List.dropLast_eq_take, List.length_set, List.getElem?_take,
            if_pos hi, List.getElem?_set]
        simp [h2]
      rw [hset, hlast]
  · intro A B C
    rfl

/-- Witness for C2 at `items = [10, 20, 30]`, `i = 0`. -/
theorem delete_swap_effect_witness :
    1 ≤ ([10, 20, 30] : List Nat).length ∧ 0 < ([10, 20, 30] : List Nat).length ∧
    delete ([10, 20, 30] : List Nat) ⟨0⟩ =
      some (Except.ok (some (Object.mk 2)), [30, 20]) :=
  ⟨by decide, by decide,
   (delete_swap_effect ([10, 20, 30] : List Nat) 0 (by decide) (by decide)).2 10 20 30⟩

/-- Counterexample to C3: on the non-empty vector `[0]` with the
out-of-range id `Object 1`, `delete` does not return `Err` — the
unchecked `swap_remove` panics (modelled as `none`). -/
theorem delete_out_of_range_not_err :
    delete ([0] : List Nat) ⟨1⟩ = none ∧
    ¬ ∃ l', delete ([0] : List Nat) ⟨1⟩ = some (Except.error (), l') := by
  refine ⟨rfl, ?_⟩
  rintro ⟨l', h⟩
  rw [show delete ([0] : List Nat) ⟨1⟩ = none from rfl] at h
  exact Option.noConfusion h

/-- Claim C3 (amended): `delete` returns `Err` whenever the vector is
empty; for a non-empty vector with `obj.idx` out of range it does not
return `Err` — the unchecked `swap_remove` panics instead. -/
theorem delete_err_empty_only {T : Type} (items : List T) (obj : Object) :
    (items.length = 0 → delete items obj = some (Except.error (), items)) ∧
    (items.length ≠ 0 → items.length ≤ obj.idx → delete items obj = none) := by
  constructor
  · intro h
    simp [delete, h]
  · intro h hle
    have hsw := swap_remove_none_of_le items obj.idx hle
    simp [delete, h, hsw]

/-- Witness for the amended C3: empty vector errs; `[5]` with id `3`
panics. -/
theorem delete_err_empty_only_witness :
    delete ([] : List Nat) ⟨0⟩ = some (Except.error (), []) ∧
    delete ([5] : List Nat) ⟨3⟩ = none :=
  ⟨(delete_err_empty_only ([] : List Nat) ⟨0⟩).1 rfl,
   (delete_err_empty_only ([5] : List Nat) ⟨3⟩).2 (by decide) (by decide)⟩

/-- Claim C4: `get` returns `Err` if and only if `obj.idx` is out of
bounds for the current vector length, and otherwise returns `Ok` with the
element stored at index `obj.idx`. -/
theorem get_spec {T : Type} (items : List T) (obj : Object) :
    (get items obj = Except.error () ↔ items.length ≤ obj.idx) ∧
    ∀ v, items[obj.idx]? = some v → get items obj = Except.ok v := by
  constructor
  · constructor
    · intro h
      cases hv : items[obj.idx]? with
      | none => exact List.getElem?_eq_none_iff.mp hv
      | some v => simp [get, hv] at h
    · intro h
      simp [get, List.getElem?_eq_none h]
  · intro v hv
    simp [get, hv]

/-- Witness for C4 at `items = [7, 8]`: in-range id `1` yields the stored
element, out-of-range id `2` errs. -/
theorem get_spec_witness :
    get ([7, 8] : List Nat) ⟨1⟩ = Except.ok 8 ∧
    get ([7, 8] : List Nat) ⟨2⟩ = Except.error () :=
  ⟨(get_spec ([7, 8] : List Nat) ⟨1⟩).2 8 rfl,
   (get_spec ([7, 8] : List Nat) ⟨2⟩).1.mpr (by decide)⟩

/-- Counterexample to C5: with the well-typed payload `AnyVal.nat 7` and
the out-of-range id `Object 5` on `[0]`, `update` does not return `Err` —
the indexed assignment panics (modelled as `none`). -/
theorem update_out_of_range_not_err :
    update downcastNat ([0] : List Nat) ⟨5⟩ (AnyVal.nat 7) = none ∧
    ¬ ∃ l', update downcastNat ([0] : List Nat) ⟨5⟩ (AnyVal.nat 7) =
      some (Except.error (), l') := by
  refine ⟨rfl, ?_⟩
  rintro ⟨l', h⟩
  rw [show update downcastNat ([0] : List Nat) ⟨5⟩ (AnyVal.nat 7) = none from rfl] at h
  exact Option.noConfusion h

/-- Claim C5 (amended): `update` returns `Err` exactly when the payload
fails to downcast to the element type; an out-of-range `obj.idx` combined
with a well-typed payload panics instead of returning `Err`. -/
theorem update_err_iff_downcast_fails {U T : Type} (downcast : U → Option T)
    (items : List T) (obj : Object) (args : U) :
    (downcast args = none →
      update downcast items obj args = some (Except.error (), items)) ∧
    (∀ l', update downcast items obj args = some (Except.error (), l') →
      downcast args = none) ∧
    (∀ v, downcast args = some v → items.length ≤ obj.idx →
      update downcast items obj args = none) := by
  refine ⟨?_, ?_, ?_⟩
  · intro h
    simp [update, h]
  · intro l' h
    cases hd : downcast args with
    | none => rfl
    | some v =>
      by_cases hlt : obj.idx < items.length
      · simp [update, hd, hlt] at h
      · simp [update, hd, hlt] at h
  · intro v hv hle
    simp [update, hv, Nat.not_lt.mpr hle]

/-- Witness for the amended C5: a string payload under `downcastNat` errs
and leaves the vector; a well-typed payload at an out-of-range id panics. -/
theorem update_err_iff_downcast_fails_witness :
    update downcastNat ([0] : List Nat) ⟨0⟩ (AnyVal.str "x") =
      some (Except.error (), [0]) ∧
    update downcastNat ([4] : List Nat) ⟨9⟩ (AnyVal.nat 7) = none :=
  ⟨(update_err_iff_downcast_fails downcastNat ([0] : List Nat) ⟨0⟩ (AnyVal.str "x")).1 rfl,
   (update_err_iff_downcast_fails downcastNat ([4] : List Nat) ⟨9⟩ (AnyVal.nat 7)).2.2
      7 rfl (by decide)⟩

/-- Claim C6: whenever a `Result`-returning helper returns `Err`
(`delete` on an empty vector, `update` on a payload that fails to
downcast), the vector handed back on the `Err` path is exactly the input
vector — no partial mutation is observable. -/
theorem err_leaves_vec_unchanged {U T : Type} (downcast : U → Option T)
    (items : List T) (obj : Object) (args : U) :
    (∀ l', delete items obj = some (Except.error (), l') → l' = items) ∧
    (∀ l', update downcast items obj args = some (Except.error (), l') →
      l' = items) := by
  constructor
  · intro l' h
    by_cases h0 : items.length = 0
    · simp [delete, h0] at h
      exact h.symm
    · cases hsw : swap_remove items obj.idx with
      | none => simp [delete, h0, hsw] at h
      | some l2 => simp [delete, h0, hsw] at h
  · intro l' h
    cases hd : downcast args with
    | none =>
      simp [update, hd] at h
      exact h.symm
    | some v =>
      by_cases hlt : obj.idx < items.length
      · simp [update, hd, hlt] at h
      · simp [update, hd, hlt] at h

/-- Witness for C6: the two `Err` paths evaluated on concrete inputs,
with the theorem recovering that the returned vector is the input. -/
theorem err_leaves_vec_unchanged_witness :
    delete ([] : List Nat) ⟨0⟩ = some (Except.error (), ([] : List Nat)) ∧
    update downcastNat ([3] : List Nat) ⟨0⟩ (AnyVal.str "x") =
      some (Except.error (), [3]) ∧
    ([] : List Nat) = [] ∧ ([3] : List Nat) = [3] :=
  ⟨rfl, rfl,
   (err_leaves_vec_unchanged downcastNat ([] : List Nat) ⟨0⟩ (AnyVal.nat 1)).1 [] rfl,
   (err_leaves_vec_unchanged downcastNat ([3] : List Nat) ⟨0⟩ (AnyVal.str "x")).2 [3] rfl⟩

/-- Claim C7: `all` returns exactly the sequence
`Object 0, Object 1, …, Object (len - 1)` in increasing order — the dense
range `[0, len)` — and the empty sequence on an empty vector. -/
theorem all_spec {T : Type} (items : List T) :
    (all items).length = items.length ∧
    (∀ j, j < items.length → (all items)[j]? = some (Object.mk j)) ∧
    all ([] : List T) = [] := by
  refine ⟨?_, ?_, rfl⟩
  · simp [all]
  · intro j hj
    simp [all, List.getElem?_map, List.getElem?_range hj]

/-- Witness for C7 at `items = [10, 20]`. -/
theorem all_spec_witness :
    (all ([10, 20] : List Nat)).length = 2 ∧
    (all ([10, 20] : List Nat))[0]? = some (Object.mk 0) ∧
    (all ([10, 20] : List Nat))[1]? = some (Object.mk 1) :=
  ⟨(all_spec ([10, 20] : List Nat)).1,
   (all_spec ([10, 20] : List Nat)).2.1 0 (by decide),
   (all_spec ([10, 20] : List Nat)).2.1 1 (by decide)⟩

/-- Claim C8: with `obj.idx` in range and a payload that downcasts to
`v`, `update` returns `Ok ()`, sets the element at index `obj.idx` to
`v`, and leaves the length and every element at any other index
unchanged. -/
theorem update_in_place {U T : Type} (downcast : U → Option T)
    (items : List T) (obj : Object) (args : U) (v : T)
    (h1 : obj.idx < items.length) (h2 : downcast args = some v) :
    update downcast items obj args = some (Except.ok (), items.set obj.idx v) ∧
    (items.set obj.idx v).length = items.length ∧
    (items.set obj.idx v)[obj.idx]? = some v ∧
    ∀ j, j ≠ obj.idx → (items.set obj.idx v)[j]? = items[j]? := by
  refine ⟨by simp [update, h2, h1], List.length_set items obj.idx v, ?_, ?_⟩
  · rw [List.getElem?_set]
    simp [h1]
  · intro j hj
    exact List.getElem?_set_ne (Ne.symm hj)

/-- Witness for C8 at `items = [1, 2]`, id `0`, payload `AnyVal.nat 9`. -/
theorem update_in_place_witness :
    0 < ([1, 2] : List Nat).length ∧ downcastNat (AnyVal.nat 9) = some 9 ∧
    update downcastNat ([1, 2] : List Nat) ⟨0⟩ (AnyVal.nat 9) =
      some (Except.ok (), [9, 2]) :=
  ⟨by decide, rfl,
   (update_in_place downcastNat ([1, 2] : List Nat) ⟨0⟩ (AnyVal.nat 9) 9
      (by decide) rfl).1⟩

/-- Claim C9: `delete` leaves every element at an index `j ≠ i` with
`j < n - 1` unchanged — only the deleted slot `i` and the vacated last
slot are affected by the swap-remove. -/
theorem delete_frame {T : Type} (items : List T) (i : Nat)
    (_h1 : 1 ≤ items.length) (h2 : i < items.length) :
    ∃ res l', delete items ⟨i⟩ = some (Except.ok res, l') ∧
      ∀ j, j ≠ i → j < items.length - 1 → l'[j]? = items[j]? := by
  obtain ⟨last, _, hd⟩ := delete_eq_of_lt items i h2
  refine ⟨_, _, hd, ?_⟩
  intro j hj hjlt
  rw [List.dropLast_eq_take, List.length_set, List.getElem?_take,
      if_pos hjlt, List.getElem?_set_ne (Ne.symm hj)]

/-- Witness for C9 at `items = [10, 20, 30]`, `i = 0`: index `1` keeps
its element `20`. -/
theorem delete_frame_witness :
    1 ≤ ([10, 20, 30] : List Nat).length ∧ 0 < ([10, 20, 30] : List Nat).length ∧
    ∃ res l', delete ([10, 20, 30] : List Nat) ⟨0⟩ = some (Except.ok res, l') ∧
      l'[1]? = some 20 := by
  refine ⟨by decide, by decide, ?_⟩
  obtain ⟨res, l', hd, hframe⟩ :=
    delete_frame ([10, 20, 30] : List Nat) 0 (by decide) (by decide)
  refine ⟨res, l', hd, ?_⟩
  rw [hframe 1 (by decide) (by decide)]
  rfl

/-- Claim C10: `delete` returns `Err` if and only if the vector is empty;
it performs no bounds check, so on a non-empty vector an out-of-range
`obj` does not return `Err` — the unguarded `swap_remove` panics
(modelled as `none`). -/
theorem delete_partial_no_bounds {T : Type} (items : List T) (obj : Object) :
    ((∃ l', delete items obj = some (Except.error (), l')) ↔ items = []) ∧
    (items ≠ [] → items.length ≤ obj.idx → delete items obj = none) := by
  constructor
  · constructor
    · rintro ⟨l', h⟩
      by_cases h0 : items.length = 0
      · exact List.length_eq_zero.mp h0
      · cases hsw : swap_remove items obj.idx with
        | none => simp [delete, h0, hsw] at h
        | some l2 => simp [delete, h0, hsw] at h
    · intro h
      subst h
      exact ⟨[], rfl⟩
  · intro h hle
    have h0 : ¬ items.length = 0 := fun hz => h (List.length_eq_zero.mp hz)
    simp [delete, h0, swap_remove_none_of_le items obj.idx hle]

/-- Witness for C10: the empty vector errs, `[5]` with the out-of-range
id `7` panics. -/
theorem delete_partial_no_bounds_witness :
    (∃ l', delete ([] : List Nat) ⟨0⟩ = some (Except.error (), l')) ∧
    delete ([5] : List Nat) ⟨7⟩ = none :=
  ⟨(delete_partial_no_bounds ([] : List Nat) ⟨0⟩).1.mpr rfl,
   (delete_partial_no_bounds ([5] : List Nat) ⟨7⟩).2 (by decide) (by decide)⟩

end EditorLib
